import Mathlib

/-!
Verification of the data-binding core of the toga repository: the
`ListSource` / `Row` conversion rules, the `Selection` widget's listener
state machine, the `Switch` boolean property, and the Textual backend
`Box.set_bounds`.

The `ListSource`, `Selection` and `Switch` implementations are not part of
the available sources (only their tests are), so those components are
modelled from the specification, with the in-repository tests pinning the
behaviour wherever they exercise it.  `Box.set_bounds` is embedded directly
from `src/textual/src/toga_textual/widgets/box.py`.
-/

namespace Toga

/-! ## Values and raw elements (ListSource row conversion) -/

/-- A scalar value stored in a row cell.  `vnone` is Python `None`, the
documented default for missing data. -/
inductive Value where
  | vnone
  | vint (n : Int)
  | vstr (s : String)
deriving DecidableEq, Repr

/-- Modelled from the spec: one raw element handed to a `ListSource`.  The
spec's conversion algorithm (section 4.2) dispatches on three shapes: a
sequence (not a mapping), a mapping, and "scalar or arbitrary object".  A
bare scalar is an object with no attributes whose own value is the scalar. -/
inductive RawElem where
  | seq (vals : List Value)
  | mapping (pairs : List (String × Value))
  | obj (self : Value) (attrs : List (String × Value))
deriving DecidableEq, Repr

/-- Key lookup in an association list (Python `dict` lookup / `getattr`). -/
def lookupKey : List (String × Value) → String → Option Value
  | [], _ => none
  | (k', v) :: rest, k => if k' = k then some v else lookupKey rest k

/-- Positional zip of the accessor list with a value sequence; missing
trailing positions default to `None` (spec rule 1). -/
def zipDefault (A : List String) (vals : List Value) : List (String × Value) :=
  match A, vals with
  | [], _ => []
  | a :: A', [] => (a, Value.vnone) :: zipDefault A' []
  | a :: A', v :: vs => (a, v) :: zipDefault A' vs

/-- Attribute lookup over an object for each accessor; a missing attribute
defaults to `None`, except that the very first accessor falls back to the
object itself (spec rule 3). -/
def objFields (first : Bool) (self : Value) (attrs : List (String × Value)) :
    List String → List (String × Value)
  | [] => []
  | a :: A' =>
      (a, match lookupKey attrs a with
          | some v => v
          | none => if first then self else Value.vnone) ::
        objFields false self attrs A'

/-- Modelled from the spec: the `ListSource` conversion of one raw element
into the cells of a `Row`, given the declared accessor list (section 4.2).
The implementation (`ListSource._create_row`) is not under the available
sources; the rules are taken verbatim from the spec's three-case algorithm. -/
def convertValue (A : List String) (e : RawElem) : List (String × Value) :=
  match e with
  | RawElem.seq vals => zipDefault A vals
  | RawElem.mapping pairs =>
      A.map (fun a => (a, (lookupKey pairs a).getD Value.vnone))
  | RawElem.obj self attrs => objFields true self attrs A

/-! ## Selection binding state machine -/

/-- A row as the Selection binding sees it: a stable identity plus the
displayed label (the value of the widget's display accessor). -/
structure Row where
  id : Nat
  label : String
deriving DecidableEq, Repr

/-- The Selection binding state: the bound source's rows in display order,
the backend-facing display titles (derived), and the current selection held
by row identity (never by index). -/
structure SelState where
  rows : List Row
  titles : List String
  selection : Option Nat
deriving DecidableEq, Repr

/-- Insertion at an index, clamped to the end as Python `list.insert` is. -/
def insertAt {α : Type} (i : Nat) (a : α) (l : List α) : List α :=
  match i, l with
  | 0, l => a :: l
  | _ + 1, [] => [a]
  | n + 1, x :: xs => x :: insertAt n a xs

/-- Index of the row with the given identity. -/
def findRow (rows : List Row) (rid : Nat) : Option Nat :=
  rows.findIdx? (fun r => r.id = rid)

/-- Modelled from the spec: the Selection listener's `insert(index, item)`
handler (section 4.4): insert a display entry at `index`; the selection is
unaffected unless the source was previously empty, in which case the new
row becomes selected and `on_change` fires.  Returns the new state and the
number of `on_change` firings. -/
def handleInsert (s : SelState) (index : Nat) (r : Row) : SelState × Nat :=
  let rows' := insertAt index r s.rows
  let titles' := insertAt index r.label s.titles
  if s.rows.isEmpty then
    ({ rows := rows', titles := titles', selection := some r.id }, 1)
  else
    ({ rows := rows', titles := titles', selection := s.selection }, 0)

/-- Modelled from the spec: the Selection listener's `remove(item)` handler
(section 4.4).  When the removed row was the selected one, the reassignment
target follows the testbed test `test_source_changes`, which asserts that
the selection falls back to the first remaining row (`source[0]`), or null
if none remain, with one `on_change` firing; removing a non-selected row
leaves selection untouched and fires nothing. -/
def handleRemove (s : SelState) (rid : Nat) : SelState × Nat :=
  match findRow s.rows rid with
  | none => (s, 0)
  | some i =>
      let rows' := s.rows.eraseIdx i
      let titles' := s.titles.eraseIdx i
      if s.selection = some rid then
        ({ rows := rows', titles := titles',
           selection := rows'.head?.map Row.id }, 1)
      else
        ({ rows := rows', titles := titles', selection := s.selection }, 0)

/-- Modelled from the spec: the Selection listener's `clear()` handler
(section 4.4): remove all display entries; if the selection was non-null it
becomes null and `on_change` fires once, otherwise nothing fires. -/
def handleClear (s : SelState) : SelState × Nat :=
  match s.selection with
  | some _ => ({ rows := [], titles := [], selection := none }, 1)
  | none => ({ rows := [], titles := [], selection := none }, 0)

/-- Modelled from the spec: the Selection listener's `change(item)` handler
(section 4.4): recompute the displayed title of that one entry in place;
never touches selection identity and never fires `on_change`. -/
def handleChange (s : SelState) (rid : Nat) (newLabel : String) : SelState × Nat :=
  match findRow s.rows rid with
  | none => (s, 0)
  | some i =>
      ({ rows := s.rows.set i { id := rid, label := newLabel },
         titles := s.titles.set i newLabel,
         selection := s.selection }, 0)

/-- Modelled from the spec: wholesale reassignment of the Selection's
`items` property (section 4.4): adopt the new rows, rebuild the entire
backend-facing display list from scratch, select the first row if any rows
exist else null, and fire `on_change` unconditionally. -/
def assignItems (_s : SelState) (newRows : List Row) : SelState × Nat :=
  ({ rows := newRows,
     titles := newRows.map Row.label,
     selection := newRows.head?.map Row.id }, 1)

/-- Modelled from the spec: backend-originated user selection (section 4.4):
the backend reports a chosen display index; resolve it to the corresponding
row; if it differs in identity from the current selection, update the
selection and fire `on_change`; if identical, no fire. -/
def userSelect (s : SelState) (index : Nat) : SelState × Nat :=
  match s.rows.get? index with
  | none => (s, 0)
  | some r =>
      if s.selection = some r.id then (s, 0)
      else ({ s with selection := some r.id }, 1)

/-! ## Switch boolean property -/

/-- A Python value supplied to a property setter. -/
inductive PyValue where
  | pybool (b : Bool)
  | pyint (n : Int)
  | pystr (s : String)
deriving DecidableEq, Repr

/-- A Python exception class raised by a property setter. -/
inductive PyErr where
  | typeError
  | valueError
deriving DecidableEq, Repr

/-- The core Switch widget state relevant to its `value` property. -/
structure Switch where
  value : Bool
deriving DecidableEq, Repr

/-- Modelled from the spec: the `Switch.value` setter.  The implementation
is not under the available sources; `test_switch.py`
(`test_set_value_with_non_boolean`) pins that assigning a non-boolean
raises Python `ValueError`, and the setter validates before touching any
state, so a failed assignment performs no state change. -/
def Switch.setValue (sw : Switch) (v : PyValue) : Except PyErr Switch :=
  match v with
  | PyValue.pybool b => Except.ok { sw with value := b }
  | _ => Except.error PyErr.valueError

/-- Modelled from the spec: `Switch.toggle()` reverses the current value by
assigning `not value` through the `value` setter
(`test_toggle_from_true_to_false` / `test_toggle_from_false_to_true`). -/
def Switch.toggle (sw : Switch) : Switch :=
  match sw.setValue (PyValue.pybool (!sw.value)) with
  | Except.ok sw' => sw'
  | Except.error _ => sw

/-! ## Textual backend Box.set_bounds -/

/-- The Pack style direction of the interface widget. -/
inductive Direction where
  | ROW
  | COLUMN
deriving DecidableEq, Repr

/-- The styles of a native Textual container, as far as `Box` touches them. -/
structure TextualStyles where
  layout : String
deriving DecidableEq, Repr

/-- A native Textual container: its styles plus a count of `refresh()`
calls issued to it. -/
structure TextualContainer where
  styles : TextualStyles
  refreshes : Nat
deriving DecidableEq, Repr

/-- A Textual-backend Box: the interface style direction it reads, and its
native container. -/
structure TextualBox where
  direction : Direction
  native : TextualContainer
deriving DecidableEq, Repr

/-- Embedded from `src/textual/src/toga_textual/widgets/box.py`:
`Box.set_bounds(x, y, width, height)` sets the native layout to
"horizontal" when the interface style direction is ROW and "vertical"
otherwise, then refreshes the native widget; the four arguments are unused. -/
def TextualBox.set_bounds (b : TextualBox) (_x _y _width _height : Int) :
    TextualBox :=
  { b with
    native :=
      { styles :=
          { layout :=
              if b.direction = Direction.ROW then "horizontal"
              else "vertical" },
        refreshes := b.native.refreshes + 1 } }

/-! ## Concrete states used by witnesses -/

/-- The five rows of `test_source_changes` just before the selected row is
removed: titles `["revised", "updated", "second", "third", "new 1"]`, with
the row named "updated" (identity 1, display index 1) selected. -/
def exRows : List Row :=
  [⟨0, "revised"⟩, ⟨1, "updated"⟩, ⟨2, "second"⟩, ⟨3, "third"⟩, ⟨4, "new 1"⟩]

/-- The Selection state of `test_source_changes` before the removal of the
selected row. -/
def exState : SelState :=
  { rows := exRows,
    titles := ["revised", "updated", "second", "third", "new 1"],
    selection := some 1 }

/-! ## Helper lemmas -/

theorem zipDefault_map_fst (A : List String) (vals : List Value) :
    (zipDefault A vals).map Prod.fst = A := by
  induction A generalizing vals with
  | nil => rfl
  | cons a A' ih => cases vals <;> simp [zipDefault, ih]

theorem objFields_map_fst (self : Value) (attrs : List (String × Value))
    (A : List String) (first : Bool) :
    (objFields first self attrs A).map Prod.fst = A := by
  induction A generalizing first with
  | nil => rfl
  | cons a A' ih => simp [objFields, ih]

theorem objFields_no_attrs (self : Value) (A : List String) :
    objFields false self [] A = A.map (fun b => (b, Value.vnone)) := by
  induction A with
  | nil => rfl
  | cons a A' ih => simp [objFields, lookupKey, ih]

theorem zipDefault_get_of_le (A : List String) (vals : List Value) (i : Nat)
    (h : vals.length ≤ i) :
    (zipDefault A vals).get? i = (A.get? i).map (fun a => (a, Value.vnone)) := by
  induction A generalizing vals i with
  | nil => simp [zipDefault]
  | cons a A' ih =>
      cases vals with
      | nil =>
          cases i with
          | zero => simp [zipDefault]
          | succ n => simpa [zipDefault] using ih [] n (by simp)
      | cons v vs =>
          cases i with
          | zero => exact absurd h (by simp)
          | succ n => simpa [zipDefault] using ih vs n (by simpa using h)

theorem lookup_convert_mapping (A : List String) (pairs : List (String × Value))
    (a : String) (ha : a ∈ A) (hm : lookupKey pairs a = none) :
    lookupKey (convertValue A (RawElem.mapping pairs)) a = some Value.vnone := by
  induction A with
  | nil => cases ha
  | cons b A' ih =>
      by_cases hb : b = a
      · subst hb; simp [convertValue, lookupKey, hm]
      · have ha' : a ∈ A' := by
          cases List.mem_cons.mp ha with
          | inl h => exact absurd h.symm hb
          | inr h => exact h
        simpa [convertValue, lookupKey, hb] using ih ha'

/-! ## Claim theorems -/

/-- Claim C1: for a Selection with a non-null selected row identity, any
mutation of the source that does not remove the selected row itself — an
insertion at any index (appending included), the removal of a row other
than the selected one, or an accessor change on any row including the
selected row's own displayed label — leaves the selection pointing at the
same row identity and fires no `on_change`. -/
theorem selection_stable_under_unrelated_mutation (s : SelState) (rid : Nat)
    (hsel : s.selection = some rid) (hmem : rid ∈ s.rows.map Row.id) :
    (∀ i r, (handleInsert s i r).1.selection = some rid
            ∧ (handleInsert s i r).2 = 0)
  ∧ (∀ rid', rid' ≠ rid →
        (handleRemove s rid').1.selection = some rid
        ∧ (handleRemove s rid').2 = 0)
  ∧ (∀ rid' lbl, (handleChange s rid' lbl).1.selection = some rid
                 ∧ (handleChange s rid' lbl).2 = 0) := by
  have hne : s.rows.isEmpty = false := by
    cases hr : s.rows with
    | nil => rw [hr] at hmem; simp at hmem
    | cons a l => simp
  refine ⟨?_, ?_, ?_⟩
  · intro i r
    simp [handleInsert, hne, hsel]
  · intro rid' hne'
    cases hf : findRow s.rows rid' with
    | none => simp [handleRemove, hf, hsel]
    | some j => simp [handleRemove, hf, hsel, Ne.symm hne']
  · intro rid' lbl
    cases hf : findRow s.rows rid' with
    | none => simp [handleChange, hf, hsel]
    | some j => simp [handleChange, hf, hsel]

/-- Witness for C1 at the `test_source_changes` state: with row identity 1
selected, inserting at index 0, removing row 3 and relabelling rows 0 and 1
all keep the selection at identity 1 and fire nothing. -/
theorem selection_stable_under_unrelated_mutation_witness :
    ((handleInsert exState 0 ⟨9, "z"⟩).1.selection = some 1
      ∧ (handleInsert exState 0 ⟨9, "z"⟩).2 = 0)
  ∧ ((handleRemove exState 3).1.selection = some 1
      ∧ (handleRemove exState 3).2 = 0)
  ∧ ((handleChange exState 1 "updated").1.selection = some 1
      ∧ (handleChange exState 1 "updated").2 = 0) := by
  have h := selection_stable_under_unrelated_mutation exState 1
    (by decide) (by decide)
  exact ⟨h.1 0 ⟨9, "z"⟩, h.2.1 3 (by decide), h.2.2 1 "updated"⟩

/-- Counterexample to C2 as stated, at the exact state exercised by
`test_source_changes`: removing the selected row (identity 1, display
index 1) leaves the selection on identity 0 — the first remaining row, as
the testbed asserts (`widget.value == source[0]`) — while the row now
occupying the removed row's former display position 1 is identity 2. -/
theorem selection_remove_selected_counterexample :
    (handleRemove exState 1).2 = 1
  ∧ (handleRemove exState 1).1.selection = some 0
  ∧ ((handleRemove exState 1).1.rows.get? 1).map Row.id = some 2
  ∧ (handleRemove exState 1).1.selection
      ≠ ((handleRemove exState 1).1.rows.get? 1).map Row.id := by decide

/-- Claim C2 (amended): when the currently selected row is removed from the
bound source, the selection is reassigned to the first remaining row of the
source, or to null if no rows remain, and `on_change` fires exactly once. -/
theorem selection_remove_selected (s : SelState) (rid i : Nat)
    (hsel : s.selection = some rid) (hidx : findRow s.rows rid = some i) :
    (handleRemove s rid).1.selection = ((s.rows.eraseIdx i).head?).map Row.id
  ∧ (handleRemove s rid).2 = 1 := by
  simp [handleRemove, hidx, hsel]

/-- Witness for C2 (amended) at the `test_source_changes` state: removing
selected identity 1 at display index 1 reselects the head of the remaining
rows and fires once. -/
theorem selection_remove_selected_witness :
    (handleRemove exState 1).1.selection
      = ((exState.rows.eraseIdx 1).head?).map Row.id
  ∧ (handleRemove exState 1).2 = 1 :=
  selection_remove_selected exState 1 1 (by decide) (by decide)

/-- Claim C3: assigning the Selection's `items` rebuilds the backend-facing
display list from scratch, selects the first row if any rows exist and null
otherwise, fires `on_change` exactly once, and does all of this
independently of the prior state — so it fires even when the resulting
selected value equals the prior one. -/
theorem selection_assign_items (s s' : SelState) (newRows : List Row) :
    (assignItems s newRows).1.rows = newRows
  ∧ (assignItems s newRows).1.titles = newRows.map Row.label
  ∧ (assignItems s newRows).1.selection = newRows.head?.map Row.id
  ∧ (assignItems s newRows).2 = 1
  ∧ assignItems s newRows = assignItems s' newRows := by
  simp [assignItems]

/-- Claim C4: row conversion is total for every accessor list and raw
element: the produced cells carry exactly the declared accessor list in
order; a sequence is zipped positionally with missing trailing positions
defaulting to `None`; a mapping is looked up by key with missing keys
defaulting to `None`; and a bare scalar becomes the value of the first
accessor with every other accessor defaulting to `None`. -/
theorem convert_row_total (A : List String) (e : RawElem) :
    (convertValue A e).map Prod.fst = A
  ∧ (∀ vals i, vals.length ≤ i →
        (convertValue A (RawElem.seq vals)).get? i
          = (A.get? i).map (fun a => (a, Value.vnone)))
  ∧ (∀ pairs a, a ∈ A → lookupKey pairs a = none →
        lookupKey (convertValue A (RawElem.mapping pairs)) a
          = some Value.vnone)
  ∧ (∀ v a A', A = a :: A' →
        convertValue A (RawElem.obj v [])
          = (a, v) :: A'.map (fun b => (b, Value.vnone))) := by
  refine ⟨?_, ?_, ?_, ?_⟩
  · cases e with
    | seq vals => exact zipDefault_map_fst A vals
    | mapping pairs => induction A with
      | nil => rfl
      | cons a A' ih => simpa [convertValue] using ih
    | obj self attrs => exact objFields_map_fst self attrs A true
  · intro vals i h
    exact zipDefault_get_of_le A vals i h
  · intro pairs a ha hm
    exact lookup_convert_mapping A pairs a ha hm
  · intro v a A' hA
    subst hA
    simp [convertValue, objFields, lookupKey, objFields_no_attrs]

/-- Witness for C4 with accessors `["name", "value"]`: a one-element
sequence leaves the second accessor `None`; a mapping without a "value" key
yields `None` there; the bare scalar 111 becomes the "name" value. -/
theorem convert_row_total_witness :
    ((convertValue ["name", "value"] (RawElem.seq [Value.vstr "first"])).get? 1
       = ((["name", "value"] : List String).get? 1).map
           (fun a => (a, Value.vnone)))
  ∧ (lookupKey (convertValue ["name", "value"]
        (RawElem.mapping [("name", Value.vstr "first")])) "value"
       = some Value.vnone)
  ∧ (convertValue ["name", "value"] (RawElem.obj (Value.vint 111) [])
       = ("name", Value.vint 111) :: ["value"].map
           (fun b => (b, Value.vnone))) := by
  have h := convert_row_total ["name", "value"] (RawElem.seq [])
  exact ⟨h.2.1 [Value.vstr "first"] 1 (by decide),
         h.2.2.1 [("name", Value.vstr "first")] "value" (by decide) (by decide),
         h.2.2.2 (Value.vint 111) "name" ["value"] rfl⟩

/-- Claim C5: clearing the bound source removes every display entry and
row; the selection becomes null; `on_change` fires once exactly when the
selection was previously non-null, and not at all when it was already
null. -/
theorem selection_clear (s : SelState) :
    (handleClear s).1.rows = []
  ∧ (handleClear s).1.titles = []
  ∧ (handleClear s).1.selection = none
  ∧ (handleClear s).2 = (if s.selection.isSome then 1 else 0) := by
  rcases s with ⟨rows, titles, sel⟩
  cases sel <;> simp [handleClear]

/-- Claim C6: inserting into an empty source selects the newly inserted
row and fires `on_change` exactly once; inserting into a non-empty source
leaves the selection reference untouched and fires nothing. -/
theorem selection_insert (s : SelState) (i : Nat) (r : Row) :
    (s.rows = [] →
      (handleInsert s i r).1.selection = some r.id
      ∧ (handleInsert s i r).2 = 1)
  ∧ (s.rows ≠ [] →
      (handleInsert s i r).1.selection = s.selection
      ∧ (handleInsert s i r).2 = 0) := by
  constructor
  · intro h
    simp [handleInsert, h]
  · intro h
    have hne : s.rows.isEmpty = false := by
      cases hr : s.rows with
      | nil => exact absurd hr h
      | cons a l => simp
    simp [handleInsert, hne]

/-- Witness for C6: the `test_source_changes` finale — inserting row
"new 3" into the cleared (empty) source selects it and fires once; and
inserting into the non-empty five-row state fires nothing. -/
theorem selection_insert_witness :
    ((handleInsert ⟨[], [], none⟩ 0 ⟨7, "new 3"⟩).1.selection = some 7
      ∧ (handleInsert ⟨[], [], none⟩ 0 ⟨7, "new 3"⟩).2 = 1)
  ∧ ((handleInsert exState 2 ⟨8, "mid"⟩).1.selection = exState.selection
      ∧ (handleInsert exState 2 ⟨8, "mid"⟩).2 = 0) :=
  ⟨(selection_insert ⟨[], [], none⟩ 0 ⟨7, "new 3"⟩).1 rfl,
   (selection_insert exState 2 ⟨8, "mid"⟩).2 (by decide)⟩

/-- Claim C7: backend-reported user selection is idempotent: a report
resolving to the currently selected row identity fires nothing and changes
nothing; a report resolving to a different identity updates the selection,
keeps the rows, and fires once; and reporting the same index twice in a
row fires only on the first report. -/
theorem selection_user_select (s : SelState) (i : Nat) (r : Row)
    (h : s.rows.get? i = some r) :
    (s.selection = some r.id → userSelect s i = (s, 0))
  ∧ (s.selection ≠ some r.id →
      (userSelect s i).1.selection = some r.id
      ∧ (userSelect s i).1.rows = s.rows
      ∧ (userSelect s i).2 = 1)
  ∧ (userSelect (userSelect s i).1 i).2 = 0 := by
  have h' : s.rows[i]? = some r := by simpa using h
  by_cases hc : s.selection = some r.id <;> simp [userSelect, h', hc]

/-- Witness for C7 at the `test_source_changes` state: index 1 resolves to
the selected identity 1, so reporting it changes nothing; index 2 resolves
to identity 2, so reporting it reselects and fires once, and reporting it
a second time fires nothing. -/
theorem selection_user_select_witness :
    (userSelect exState 1 = (exState, 0))
  ∧ ((userSelect exState 2).1.selection = some 2
      ∧ (userSelect exState 2).1.rows = exState.rows
      ∧ (userSelect exState 2).2 = 1)
  ∧ (userSelect (userSelect exState 2).1 2).2 = 0 :=
  ⟨(selection_user_select exState 1 ⟨1, "updated"⟩ (by decide)).1 (by decide),
   (selection_user_select exState 2 ⟨2, "second"⟩ (by decide)).2.1 (by decide),
   (selection_user_select exState 2 ⟨2, "second"⟩ (by decide)).2.2⟩

/-- Counterexample to C8 as stated: assigning the non-boolean string "on"
to `Switch.value` — the exact input of `test_set_value_with_non_boolean` —
raises Python `ValueError`, which is not a `TypeError`. -/
theorem switch_non_boolean_error_class :
    (Switch.mk true).setValue (PyValue.pystr "on")
      = Except.error PyErr.valueError
  ∧ PyErr.valueError ≠ PyErr.typeError := ⟨rfl, by decide⟩

/-- Claim C8 (amended): assigning a non-boolean value to `Switch.value`
fails immediately with a `ValueError` and performs no state change (the
setter returns no new state). -/
theorem switch_set_value_non_boolean (sw : Switch) (v : PyValue)
    (h : ∀ b, v ≠ PyValue.pybool b) :
    sw.setValue v = Except.error PyErr.valueError := by
  cases v with
  | pybool b => exact absurd rfl (h b)
  | pyint n => rfl
  | pystr s => rfl

/-- Witness for C8 (amended) at the test's input: the string "on" is not a
boolean and its assignment yields the `ValueError`. -/
theorem switch_set_value_non_boolean_witness :
    (∀ b, PyValue.pystr "on" ≠ PyValue.pybool b)
  ∧ (Switch.mk true).setValue (PyValue.pystr "on")
      = Except.error PyErr.valueError :=
  ⟨fun b => by simp,
   switch_set_value_non_boolean ⟨true⟩ (PyValue.pystr "on") (fun b => by simp)⟩

/-- Claim C9: after setting `Switch.value` to `v`, `toggle()` flips the
value to `not v`, and toggling twice restores the original state. -/
theorem switch_toggle_involution (sw : Switch) (v : Bool) :
    sw.setValue (PyValue.pybool v) = Except.ok ⟨v⟩
  ∧ (Switch.mk v).toggle.value = !v
  ∧ (Switch.mk v).toggle.toggle = Switch.mk v := by
  cases v <;> simp [Switch.setValue, Switch.toggle]

/-- Claim C10: `Box.set_bounds` on the Textual backend sets the native
layout to "horizontal" exactly when the interface style direction is ROW
and to "vertical" for every other direction, issues one refresh of the
native widget, and ignores all four positional arguments. -/
theorem box_set_bounds_spec (b : TextualBox)
    (x y w h x' y' w' h' : Int) :
    ((b.set_bounds x y w h).native.styles.layout = "horizontal"
       ↔ b.direction = Direction.ROW)
  ∧ ((b.set_bounds x y w h).native.styles.layout = "vertical"
       ↔ b.direction ≠ Direction.ROW)
  ∧ (b.set_bounds x y w h).native.refreshes = b.native.refreshes + 1
  ∧ b.set_bounds x y w h = b.set_bounds x' y' w' h' := by
  rcases b with ⟨d, n⟩
  cases d <;> simp [TextualBox.set_bounds]

end Toga
